import Mathlib

/-!
Verification of the session & permission coordination layer of the
voice-agent repository, as a shallow embedding in Lean 4.

The definitions below are translated from the Python sources:
  * `src/voice_agent/sessions/permissions.py` (permission engine),
  * `src/voice_agent/sessions/storage.py`    (session store),
  * `src/voice_agent/sessions/manager.py`    (session registry).

Conventions of the embedding:
  * Python `dict[str, T]` values are association lists `List (String × T)`
    with first-match lookup (JSON objects and the dicts in play have
    distinct keys; Python dict assignment is modelled as
    replace-in-place-or-append, which preserves Python's insertion order).
  * `async` control flow is split at its suspension point:
    `request_permission` becomes a synchronous prefix
    (`request_permission_start`, everything before `await ... event.wait()`)
    and a synchronous suffix (`request_permission_finish`, the
    `try/except asyncio.TimeoutError` block), with the scheduler's choice
    (resolved before timeout / timed out) passed as an explicit boolean.
  * Python's `re.search` is an external library call; it is modelled as an
    oracle parameter `reSearch : String → String → Bool` standing for the
    flagless (hence case-sensitive) `re.search(pattern, value)` truth value.
  * exceptions are modelled with `Except PyErr`; the input-data values read
    by the engine are strings, so tool inputs are `List (String × String)`.
-/

namespace VoiceAgent

/-- Association-list lookup, modelling Python `dict.get(key)` /
`key in dict` on string-keyed dicts. -/
def alGet {α : Type} [DecidableEq κ] (d : List (κ × α)) (k : κ) : Option α :=
  match d with
  | [] => none
  | (k', v) :: rest => if k' = k then some v else alGet rest k

/-- Association-list assignment, modelling Python `d[k] = v`: replaces the
value in place if the key exists (insertion order kept), else appends. -/
def alSet {α : Type} [DecidableEq κ] (d : List (κ × α)) (k : κ) (v : α) :
    List (κ × α) :=
  match d with
  | [] => [(k, v)]
  | (k', v') :: rest =>
      if k' = k then (k, v) :: rest else (k', v') :: alSet rest k v

/-- Association-list deletion, modelling Python `del d[k]`: keys are
unique in every dict this layer builds, so removing every binding of `k`
coincides with removing its single binding. -/
def alErase {α : Type} [DecidableEq κ] (d : List (κ × α)) (k : κ) :
    List (κ × α) :=
  match d with
  | [] => []
  | (k', v') :: rest =>
      if k' = k then alErase rest k else (k', v') :: alErase rest k

/-! ## permissions.py -/

/-- `class PermissionState(Enum)` — state of a pending permission request. -/
inductive PermissionState where
  | PENDING
  | APPROVED
  | DENIED
  | TIMEOUT
  deriving DecidableEq, Repr

/-- `TOOL_FIELD_NAMES` — field names that identify the "target" of each
tool. -/
def TOOL_FIELD_NAMES : List (String × String) :=
  [("Bash", "command"),
   ("Write", "file_path"),
   ("Edit", "file_path"),
   ("NotebookEdit", "notebook_path")]

/-- `@dataclass class StickyApproval` — a sticky approval rule that
auto-approves matching tool calls. -/
structure StickyApproval where
  tool_name : String
  pattern : Option String
  field_name : Option String
  deriving DecidableEq, Repr

/-- `StickyApproval.matches` — check if this sticky approval matches a tool
call.  `reSearch` is the oracle for Python's flagless `re.search`.
`input_data.get(self.field_name, "")` followed by the truthiness test
`if not field_value` makes an absent field and an empty field
indistinguishable (both fail to match). -/
def StickyApproval.matches (reSearch : String → String → Bool)
    (a : StickyApproval) (tool_name : String)
    (input_data : List (String × String)) : Bool :=
  if tool_name ≠ a.tool_name then false
  else
    match a.pattern with
    | none => true
    | some pat =>
      match a.field_name with
      | none => true
      | some f =>
        -- `if not self.field_name` is also taken for the empty string
        if f = "" then true
        else
          let field_value := (alGet input_data f).getD ""
          if field_value = "" then false
          else reSearch pat field_value

/-- `@dataclass class PendingPermission` — a permission request waiting for
user approval.  The `asyncio.Event` is modelled by its set/unset bit. -/
structure PendingPermission where
  tool_name : String
  input_data : List (String × String)
  event : Bool
  state : PermissionState
  deny_message : Option String
  deriving DecidableEq, Repr

/-- `PendingPermission(tool_name=…, input_data=…)` with the dataclass
defaults (`event` fresh and unset, `state=PENDING`, `deny_message=None`). -/
def PendingPermission.new (tool_name : String)
    (input_data : List (String × String)) : PendingPermission :=
  ⟨tool_name, input_data, false, PermissionState.PENDING, none⟩

/-- `SAFE_TOOLS` — tools that are always safe to allow. -/
def SAFE_TOOLS : List String := ["Read", "Glob", "Grep", "WebSearch", "WebFetch"]

/-- `SAFE_BASH_PATTERNS` — bash commands that are safe (read-only). -/
def SAFE_BASH_PATTERNS : List String :=
  ["ls", "cat", "head", "tail", "pwd", "echo", "which",
   "git status", "git log", "git diff", "git branch", "git show"]

/-- Python `str.strip()` with no argument: remove leading and trailing
whitespace characters. -/
def pyStrip (s : String) : String :=
  ⟨((s.data.dropWhile Char.isWhitespace).reverse.dropWhile
      Char.isWhitespace).reverse⟩

/-- Python `s.startswith(pat)`: `pat` is a character-level prefix of `s`
(no token boundary of any kind). -/
def pyStartsWith (s pat : String) : Bool :=
  pat.data.isPrefixOf s.data

/-- `is_safe_bash_command` — `command.strip()` then a raw
`command.startswith(pattern)` scan over `SAFE_BASH_PATTERNS`. -/
def is_safe_bash_command (command : String) : Bool :=
  let command := pyStrip command
  SAFE_BASH_PATTERNS.any (fun pat => pyStartsWith command pat)

/-- `is_safe_tool_call` — check if a tool call is safe to auto-approve. -/
def is_safe_tool_call (tool_name : String)
    (input_data : List (String × String)) : Bool :=
  if SAFE_TOOLS.contains tool_name then true
  else if tool_name = "Bash" then
    is_safe_bash_command ((alGet input_data "command").getD "")
  else false

/-- `class PermissionHandler` — the mutable fields set in `__init__`; the
notify callback is modelled by its presence bit, and its invocations are
counted by `request_permission_start`. -/
structure PermissionHandler where
  pending : Option PendingPermission
  timeout : Nat
  has_notify_callback : Bool
  sticky_approvals : List StickyApproval
  deriving DecidableEq, Repr

/-- `PermissionHandler.has_pending` —
`self.pending is not None and self.pending.state == PermissionState.PENDING`. -/
def PermissionHandler.has_pending (h : PermissionHandler) : Bool :=
  match h.pending with
  | none => false
  | some p => p.state = PermissionState.PENDING

/-- `PermissionHandler._check_sticky_approval` — any sticky rule matches. -/
def PermissionHandler.check_sticky_approval (reSearch : String → String → Bool)
    (h : PermissionHandler) (tool_name : String)
    (input_data : List (String × String)) : Bool :=
  h.sticky_approvals.any (fun a => a.matches reSearch tool_name input_data)

/-- Outcome of the synchronous prefix of `request_permission`: either the
coroutine returned immediately (auto-approval paths, lines 249–255) or it
created a `PendingPermission` and is about to suspend on its event. -/
inductive RequestStart where
  | returned (result : Bool × Option String)
  | suspended (p : PendingPermission)
  deriving DecidableEq, Repr

/-- `request_permission`, part 1: everything before
`await asyncio.wait_for(self.pending.event.wait(), …)`.  Returns the
outcome, the handler state at the suspension point, and the number of
`notify_callback` invocations performed (0 or 1). -/
def PermissionHandler.request_permission_start
    (reSearch : String → String → Bool) (h : PermissionHandler)
    (tool_name : String) (input_data : List (String × String)) :
    RequestStart × PermissionHandler × Nat :=
  -- Auto-approve safe tools
  if is_safe_tool_call tool_name input_data then
    (RequestStart.returned (true, none), h, 0)
  -- Check sticky approvals
  else if h.check_sticky_approval reSearch tool_name input_data then
    (RequestStart.returned (true, none), h, 0)
  else
    -- Create pending permission (unconditionally overwrites `self.pending`)
    let p := PendingPermission.new tool_name input_data
    (RequestStart.suspended p, { h with pending := some p },
     if h.has_notify_callback then 1 else 0)

/-- `request_permission`, part 2: the `try/except asyncio.TimeoutError`
block (lines 264–274).  `timedOut` tells whether `asyncio.wait_for` raised.
Returns the `(approved, message)` result, the handler afterwards, and the
final value of the (now discarded) pending object; `none` models the
`AttributeError` Python would raise reading `self.pending.state` with
`self.pending is None`. -/
def PermissionHandler.request_permission_finish (h : PermissionHandler)
    (timedOut : Bool) :
    Option ((Bool × Option String) × PermissionHandler × PendingPermission) :=
  match h.pending with
  | none => none
  | some p =>
    if timedOut then
      some ((false, some "Permission request timed out"),
            { h with pending := none },
            { p with state := PermissionState.TIMEOUT })
    else
      some ((p.state = PermissionState.APPROVED, p.deny_message),
            { h with pending := none }, p)

/-- `PermissionHandler.approve` — approve the pending permission. -/
def PermissionHandler.approve (h : PermissionHandler) :
    Bool × PermissionHandler :=
  match h.pending with
  | none => (false, h)
  | some p =>
    if p.state ≠ PermissionState.PENDING then (false, h)
    else
      let p' := { p with state := PermissionState.APPROVED, event := true }
      (true, { h with pending := some p' })

/-- `PermissionHandler.deny` — deny the pending permission
(default message "User rejected"). -/
def PermissionHandler.deny (h : PermissionHandler) (message : Option String) :
    Bool × PermissionHandler :=
  match h.pending with
  | none => (false, h)
  | some p =>
    if p.state ≠ PermissionState.PENDING then (false, h)
    else
      let p' := { p with state := PermissionState.DENIED,
                         deny_message := some (message.getD "User rejected"),
                         event := true }
      (true, { h with pending := some p' })

/-- `PermissionHandler.sticky_approve` — approve pending permission and
create a sticky rule (no pattern, the tool's designated field) for it. -/
def PermissionHandler.sticky_approve (h : PermissionHandler) :
    Option StickyApproval × PermissionHandler :=
  match h.pending with
  | none => (none, h)
  | some p =>
    if p.state ≠ PermissionState.PENDING then (none, h)
    else
      let field_name := alGet TOOL_FIELD_NAMES p.tool_name
      let sticky : StickyApproval := ⟨p.tool_name, none, field_name⟩
      let p' := { p with state := PermissionState.APPROVED, event := true }
      (some sticky,
       { h with sticky_approvals := h.sticky_approvals ++ [sticky],
                pending := some p' })

/-- `PermissionHandler.get_sticky_approvals`. -/
def PermissionHandler.get_sticky_approvals (h : PermissionHandler) :
    List StickyApproval :=
  h.sticky_approvals

/-- `PermissionHandler.clear_sticky_approvals` — clear all sticky
approvals, returning how many were removed. -/
def PermissionHandler.clear_sticky_approvals (h : PermissionHandler) :
    Nat × PermissionHandler :=
  (h.sticky_approvals.length, { h with sticky_approvals := [] })

/-! ## Permission engine: helper lemmas -/

theorem is_safe_bash_command_iff (cmd : String) :
    is_safe_bash_command cmd = true ↔
      ∃ pat ∈ SAFE_BASH_PATTERNS, pyStartsWith (pyStrip cmd) pat = true := by
  simp [is_safe_bash_command, List.any_eq_true]

theorem is_safe_tool_call_iff (tool : String)
    (input : List (String × String)) :
    is_safe_tool_call tool input = true ↔
      tool ∈ SAFE_TOOLS ∨
      (tool = "Bash" ∧
       is_safe_bash_command ((alGet input "command").getD "") = true) := by
  unfold is_safe_tool_call
  by_cases hm : tool ∈ SAFE_TOOLS
  · have hc : SAFE_TOOLS.contains tool = true := by simpa using hm
    simp [hc, hm]
  · have hc : SAFE_TOOLS.contains tool = false := by simpa using hm
    by_cases hb : tool = "Bash" <;> simp [hc, hm, hb]

theorem check_sticky_of_mem (reSearch : String → String → Bool)
    (h : PermissionHandler) (a : StickyApproval) (tool : String)
    (input : List (String × String)) (hmem : a ∈ h.sticky_approvals)
    (hmatch : a.matches reSearch tool input = true) :
    h.check_sticky_approval reSearch tool input = true := by
  unfold PermissionHandler.check_sticky_approval
  exact List.any_eq_true.mpr ⟨a, hmem, hmatch⟩

/-! ## Claim theorems: permission engine -/

/-- C2.  Every tool in the safe set, and every Bash call whose stripped
command starts with a safe read-only pattern, is auto-approved by
`request_permission`: it returns `(True, None)` with the handler unchanged
(no `PendingPermission` is created, so `has_pending()` stays false when it
was false) and zero `notify_callback` invocations; and the notify callback
is invoked exactly once when (and only when) a `PendingPermission` is
created, never on the auto-approval paths. -/
theorem safe_calls_auto_approve (reSearch : String → String → Bool)
    (h : PermissionHandler) (tool : String)
    (input : List (String × String)) :
    ((tool ∈ SAFE_TOOLS ∨
      (tool = "Bash" ∧ ∃ pat ∈ SAFE_BASH_PATTERNS,
        pyStartsWith (pyStrip ((alGet input "command").getD ""))
          pat = true)) →
      h.request_permission_start reSearch tool input
        = (RequestStart.returned (true, none), h, 0) ∧
      (h.has_pending = false →
        (h.request_permission_start reSearch tool input).2.1.has_pending
          = false)) ∧
    (h.has_notify_callback = true →
      ((∃ p, (h.request_permission_start reSearch tool input).1
          = RequestStart.suspended p) ↔
        (h.request_permission_start reSearch tool input).2.2 = 1)) ∧
    ((h.request_permission_start reSearch tool input).1
        = RequestStart.returned (true, none) →
      (h.request_permission_start reSearch tool input).2.2 = 0) := by
  refine ⟨?_, ?_⟩
  · intro hsafe
    have hs : is_safe_tool_call tool input = true := by
      rw [is_safe_tool_call_iff]
      rcases hsafe with hmem | ⟨hb, hpat⟩
      · exact Or.inl hmem
      · exact Or.inr ⟨hb, (is_safe_bash_command_iff _).mpr hpat⟩
    unfold PermissionHandler.request_permission_start
    simp [hs]
  · unfold PermissionHandler.request_permission_start
    by_cases hs : is_safe_tool_call tool input = true
    · simp [hs]
    · simp only [Bool.not_eq_true] at hs
      by_cases hst : h.check_sticky_approval reSearch tool input = true
      · simp [hs, hst]
      · simp only [Bool.not_eq_true] at hst
        constructor
        · intro hcb
          simp [hs, hst, hcb]
        · simp [hs, hst]

/-- C2 witness: the safe tool `Read` and the safe Bash command `git status`
are auto-approved from a fresh handler. -/
theorem safe_calls_auto_approve_witness :
    (("Read" ∈ SAFE_TOOLS ∨
      ("Read" = "Bash" ∧ ∃ pat ∈ SAFE_BASH_PATTERNS,
        pyStartsWith (pyStrip ((alGet ([] : List (String × String))
          "command").getD "")) pat = true)) ∧
      (PermissionHandler.mk none 300 true []).request_permission_start
          (fun _ _ => false) "Read" []
        = (RequestStart.returned (true, none),
           PermissionHandler.mk none 300 true [], 0)) ∧
    (PermissionHandler.mk none 300 true []).request_permission_start
        (fun _ _ => false) "Bash" [("command", "git status")]
      = (RequestStart.returned (true, none),
         PermissionHandler.mk none 300 true [], 0) := by
  refine ⟨⟨Or.inl (by decide), ?_⟩, ?_⟩
  · exact ((safe_calls_auto_approve (fun _ _ => false)
      (PermissionHandler.mk none 300 true []) "Read" []).1
      (Or.inl (by decide))).1
  · exact ((safe_calls_auto_approve (fun _ _ => false)
      (PermissionHandler.mk none 300 true []) "Bash"
      [("command", "git status")]).1
      (Or.inr ⟨rfl, "git status", by decide, by decide⟩)).1

/-- C10.  Safe-Bash classification is raw character-prefix matching on the
stripped command, with no token boundary: every Bash input whose stripped
`command` starts, character-wise, with one of the safe patterns is
auto-approved with `(True, None)` — including compound or non-read-only
commands such as `"echo hi && rm -rf /"` or `"catalog --delete"`
(witnessed below). -/
theorem safe_bash_raw_character_scan
    (reSearch : String → String → Bool) (h : PermissionHandler)
    (input : List (String × String)) (cmd : String)
    (hcmd : alGet input "command" = some cmd)
    (hpat : ∃ pat ∈ SAFE_BASH_PATTERNS,
      pyStartsWith (pyStrip cmd) pat = true) :
    h.request_permission_start reSearch "Bash" input
      = (RequestStart.returned (true, none), h, 0) := by
  have hs : is_safe_tool_call "Bash" input = true := by
    rw [is_safe_tool_call_iff]
    exact Or.inr ⟨rfl, by
      rw [hcmd]
      exact (is_safe_bash_command_iff cmd).mpr hpat⟩
  unfold PermissionHandler.request_permission_start
  simp [hs]

/-- C10 witness: `"echo hi && rm -rf /"` (compound, destructive) and
`"catalog --delete"` (merely sharing the characters `cat`) are both
auto-approved. -/
theorem safe_bash_raw_character_scan_witness :
    (PermissionHandler.mk none 300 true []).request_permission_start
        (fun _ _ => false) "Bash" [("command", "echo hi && rm -rf /")]
      = (RequestStart.returned (true, none),
         PermissionHandler.mk none 300 true [], 0) ∧
    (PermissionHandler.mk none 300 true []).request_permission_start
        (fun _ _ => false) "Bash" [("command", "catalog --delete")]
      = (RequestStart.returned (true, none),
         PermissionHandler.mk none 300 true [], 0) := by
  constructor
  · exact safe_bash_raw_character_scan (fun _ _ => false)
      (PermissionHandler.mk none 300 true [])
      [("command", "echo hi && rm -rf /")] "echo hi && rm -rf /" (by decide)
      ⟨"echo", by decide, by decide⟩
  · exact safe_bash_raw_character_scan (fun _ _ => false)
      (PermissionHandler.mk none 300 true [])
      [("command", "catalog --delete")] "catalog --delete" (by decide)
      ⟨"cat", by decide, by decide⟩


/-- Shared helper: on a call that is neither safe nor sticky-matched,
`request_permission` reaches line 258: it unconditionally overwrites
`self.pending` with a fresh `PendingPermission` and suspends, notifying
once iff a callback is registered. -/
theorem request_start_creates_pending (reSearch : String → String → Bool)
    (h : PermissionHandler) (tool : String)
    (input : List (String × String))
    (hnotsafe : is_safe_tool_call tool input = false)
    (hsticky : h.check_sticky_approval reSearch tool input = false) :
    h.request_permission_start reSearch tool input
      = (RequestStart.suspended (PendingPermission.new tool input),
         { h with pending := some (PendingPermission.new tool input) },
         if h.has_notify_callback then 1 else 0) := by
  unfold PermissionHandler.request_permission_start
  simp [hnotsafe, hsticky]

/-- C1 (amended).  The engine has no queue: a `request_permission` call
that reaches the pending-creation path while an earlier request is still
pending does not queue behind it — it unconditionally replaces
`self.pending` with the new `PendingPermission`, whatever was pending
before; the first request's object is orphaned, not left installed. -/
theorem second_request_overwrites_pending
    (reSearch : String → String → Bool) (h : PermissionHandler)
    (tool : String) (input : List (String × String))
    (hnotsafe : is_safe_tool_call tool input = false)
    (hsticky : h.check_sticky_approval reSearch tool input = false) :
    (h.request_permission_start reSearch tool input).2.1.pending
      = some (PendingPermission.new tool input) := by
  rw [request_start_creates_pending reSearch h tool input hnotsafe hsticky]

/-- C1 witness: the overwrite theorem applied to a handler that already
holds a pending request. -/
theorem second_request_overwrites_pending_witness :
    ((PermissionHandler.mk
        (some (PendingPermission.new "Write" [("file_path", "/a")]))
        300 false []).request_permission_start (fun _ _ => false)
        "Write" [("file_path", "/b")]).2.1.pending
      = some (PendingPermission.new "Write" [("file_path", "/b")]) :=
  second_request_overwrites_pending (fun _ _ => false)
    (PermissionHandler.mk
      (some (PendingPermission.new "Write" [("file_path", "/a")]))
      300 false [])
    "Write" [("file_path", "/b")] (by decide) (by decide)

/-- C1 counterexample: with a first request pending (`has_pending` true),
a second unsafe `request_permission` call does not leave the first
`PendingPermission` intact — `pending` now holds the second request. -/
theorem second_request_no_queue_counterexample :
    (PermissionHandler.mk
        (some (PendingPermission.new "Write" [("file_path", "/a")]))
        300 false []).has_pending = true ∧
    ((PermissionHandler.mk
        (some (PendingPermission.new "Write" [("file_path", "/a")]))
        300 false []).request_permission_start (fun _ _ => false)
        "Write" [("file_path", "/b")]).2.1.pending
      ≠ some (PendingPermission.new "Write" [("file_path", "/a")]) ∧
    ((PermissionHandler.mk
        (some (PendingPermission.new "Write" [("file_path", "/a")]))
        300 false []).request_permission_start (fun _ _ => false)
        "Write" [("file_path", "/b")]).2.1.pending
      = some (PendingPermission.new "Write" [("file_path", "/b")]) := by
  decide

/-- C3.  An unsafe, non-sticky call creates a pending permission and, when
the wait times out, `request_permission` returns
`(False, "Permission request timed out")`, the pending object is marked
`TIMEOUT` and cleared from the handler, and the engine is left clean
(`has_pending()` false). -/
theorem timeout_denies_and_clears (reSearch : String → String → Bool)
    (h : PermissionHandler) (tool : String)
    (input : List (String × String))
    (hnotsafe : is_safe_tool_call tool input = false)
    (hsticky : h.check_sticky_approval reSearch tool input = false) :
    (∃ n, h.request_permission_start reSearch tool input
        = (RequestStart.suspended (PendingPermission.new tool input),
           { h with pending := some (PendingPermission.new tool input) },
           n)) ∧
    ({ h with pending := some (PendingPermission.new tool input) }
        : PermissionHandler).request_permission_finish true
      = some ((false, some "Permission request timed out"),
              { h with pending := none },
              ⟨tool, input, false, PermissionState.TIMEOUT, none⟩) ∧
    ({ h with pending := none } : PermissionHandler).has_pending = false := by
  refine ⟨⟨_, request_start_creates_pending reSearch h tool input hnotsafe hsticky⟩,
          ?_, rfl⟩
  simp [PermissionHandler.request_permission_finish, PendingPermission.new]

/-- C3 witness: a fresh handler, an unsafe `Write` call, and a timeout. -/
theorem timeout_denies_and_clears_witness :
    ((PermissionHandler.mk none 1 false []) : PermissionHandler).pending
        = none ∧
    (∃ n, (PermissionHandler.mk none 1 false []).request_permission_start
        (fun _ _ => false) "Write" [("file_path", "/a")]
        = (RequestStart.suspended
             (PendingPermission.new "Write" [("file_path", "/a")]),
           PermissionHandler.mk
             (some (PendingPermission.new "Write" [("file_path", "/a")]))
             1 false [], n)) ∧
    (PermissionHandler.mk
        (some (PendingPermission.new "Write" [("file_path", "/a")]))
        1 false []).request_permission_finish true
      = some ((false, some "Permission request timed out"),
              PermissionHandler.mk none 1 false [],
              ⟨"Write", [("file_path", "/a")], false,
               PermissionState.TIMEOUT, none⟩) := by
  have hc := timeout_denies_and_clears (fun _ _ => false)
    (PermissionHandler.mk none 1 false []) "Write" [("file_path", "/a")]
    (by decide) (by decide)
  exact ⟨rfl, hc.1, hc.2.1⟩

/-- C6.  `StickyApproval.matches` with both a pattern and a (non-empty)
field name delegates to the (case-sensitive, flagless) regex search of the
pattern against the named input field; an absent field never matches; a
rule with no pattern matches exactly the calls whose tool name equals the
rule's tool name. -/
theorem sticky_matches_semantics (reSearch : String → String → Bool)
    (a : StickyApproval) (tool : String)
    (input : List (String × String)) (pat f : String) :
    (a.pattern = some pat → a.field_name = some f → f ≠ "" →
      ((alGet input f = none →
          a.matches reSearch tool input = false) ∧
       (∀ v, alGet input f = some v → v ≠ "" → tool = a.tool_name →
          a.matches reSearch tool input = reSearch pat v))) ∧
    (a.pattern = none →
      (a.matches reSearch tool input = true ↔ tool = a.tool_name)) := by
  constructor
  · intro hpat hf hne
    constructor
    · intro habs
      by_cases ht : tool = a.tool_name
      · simp [StickyApproval.matches, ht, hpat, hf, hne, habs]
      · simp [StickyApproval.matches, ht]
    · intro v hv hvne ht
      simp [StickyApproval.matches, ht, hpat, hf, hne, hv, hvne]
  · intro hpat
    by_cases ht : tool = a.tool_name <;>
      simp [StickyApproval.matches, ht, hpat]

/-- C6 witness: a Bash rule with pattern `rm` and field `command` matched
against a call carrying that field. -/
theorem sticky_matches_semantics_witness :
    StickyApproval.matches (fun _ _ => true)
      ⟨"Bash", some "rm", some "command"⟩ "Bash"
      [("command", "rm -rf /")] = true ∧
    StickyApproval.matches (fun _ _ => true)
      ⟨"Bash", some "rm", some "command"⟩ "Bash" [] = false := by
  constructor
  · exact ((sticky_matches_semantics (fun _ _ => true)
      ⟨"Bash", some "rm", some "command"⟩ "Bash"
      [("command", "rm -rf /")] "rm" "command").1 rfl rfl
      (by decide)).2 "rm -rf /" (by decide) (by decide) rfl
  · exact ((sticky_matches_semantics (fun _ _ => true)
      ⟨"Bash", some "rm", some "command"⟩ "Bash" [] "rm" "command").1
      rfl rfl (by decide)).1 (by decide)


/-- Notation helper for the statements below: the handler with its
`pending` slot set to `p` and everything else unchanged. -/
def PermissionHandler.withPending (h : PermissionHandler)
    (p : Option PendingPermission) : PermissionHandler :=
  { h with pending := p }

/-- Notation helper: the handler with both its sticky list and its
`pending` slot replaced. -/
def PermissionHandler.withStickyPending (h : PermissionHandler)
    (st : List StickyApproval) (p : Option PendingPermission) :
    PermissionHandler :=
  { h with sticky_approvals := st, pending := p }

/-- C4.  Resolution of a pending request is exactly-once and total:
`approve()` makes the suspended request return `(True, None)`;
`deny("x")` makes it return `(False, "x")`; `deny()` with no message
yields `(False, "User rejected")`; after either resolution `pending` is
cleared and `has_pending()` is false; and `approve()`/`deny()` with
nothing pending, or on an already-resolved request (in particular right
after a first resolution), return `False` and leave the handler
untouched. -/
theorem resolve_exactly_once (h : PermissionHandler) (tool : String)
    (input : List (String × String)) (x : String) (m : Option String) :
    -- approve() resolves the pending request and the resumed wait
    -- returns (True, None), clearing pending
    ((h.withPending (some (PendingPermission.new tool input))).approve
      = (true, h.withPending
          (some ⟨tool, input, true, PermissionState.APPROVED, none⟩))) ∧
    ((h.withPending
        (some ⟨tool, input, true, PermissionState.APPROVED, none⟩)
        ).request_permission_finish false
      = some ((true, none), h.withPending none,
              ⟨tool, input, true, PermissionState.APPROVED, none⟩)) ∧
    -- deny("x") resolves it and the resumed wait returns (False, "x")
    ((h.withPending (some (PendingPermission.new tool input))).deny (some x)
      = (true, h.withPending
          (some ⟨tool, input, true, PermissionState.DENIED, some x⟩))) ∧
    ((h.withPending
        (some ⟨tool, input, true, PermissionState.DENIED, some x⟩)
        ).request_permission_finish false
      = some ((false, some x), h.withPending none,
              ⟨tool, input, true, PermissionState.DENIED, some x⟩)) ∧
    -- deny() with no message uses the default "User rejected"
    ((h.withPending (some (PendingPermission.new tool input))).deny none
      = (true, h.withPending
          (some ⟨tool, input, true, PermissionState.DENIED,
                 some "User rejected"⟩))) ∧
    -- the engine is clean after resolution
    ((h.withPending none).has_pending = false) ∧
    -- no-ops: nothing pending
    ((h.withPending none).approve = (false, h.withPending none)) ∧
    ((h.withPending none).deny m = (false, h.withPending none)) ∧
    -- no-ops: already resolved (a request is never resolved twice)
    ((h.withPending
        (some ⟨tool, input, true, PermissionState.APPROVED, none⟩)).approve
      = (false, h.withPending
          (some ⟨tool, input, true, PermissionState.APPROVED, none⟩))) ∧
    ((h.withPending
        (some ⟨tool, input, true, PermissionState.APPROVED, none⟩)).deny m
      = (false, h.withPending
          (some ⟨tool, input, true, PermissionState.APPROVED, none⟩))) ∧
    ((h.withPending
        (some ⟨tool, input, true, PermissionState.DENIED, some x⟩)).approve
      = (false, h.withPending
          (some ⟨tool, input, true, PermissionState.DENIED, some x⟩))) := by
  refine ⟨?_, rfl, ?_, rfl, ?_, rfl, rfl, rfl, ?_, ?_, ?_⟩ <;>
    simp [PermissionHandler.approve, PermissionHandler.deny,
          PermissionHandler.withPending, PendingPermission.new,
          PermissionHandler.request_permission_finish]

/-- C5.  `sticky_approve()` on a pending request returns a new rule for
the pending tool with the tool's designated match field and no pattern,
appends it to the sticky list, and approves the pending request
(`None` and no change when nothing is pending); once added on a Bash
request, every subsequent Bash call — any command — auto-approves with
`(True, None)`, until `clear_sticky_approvals()` removes all rules,
returning their number and leaving the list empty, after which an unsafe
Bash call suspends again. -/
theorem sticky_approve_semantics (reSearch : String → String → Bool)
    (h : PermissionHandler) (tool : String)
    (input0 input' : List (String × String)) :
    -- general shape of the created rule, for any tool
    ((h.withPending (some (PendingPermission.new tool input0))).sticky_approve
      = (some ⟨tool, none, alGet TOOL_FIELD_NAMES tool⟩,
         h.withStickyPending
           (h.sticky_approvals ++ [⟨tool, none, alGet TOOL_FIELD_NAMES tool⟩])
           (some ⟨tool, input0, true, PermissionState.APPROVED, none⟩))) ∧
    -- Bash's designated match field is "command"
    (alGet TOOL_FIELD_NAMES "Bash" = some "command") ∧
    -- nothing pending: returns None, no change
    ((h.withPending none).sticky_approve = (none, h.withPending none)) ∧
    -- after sticky-approving a Bash request, every Bash call (any
    -- command, any input) is auto-approved with (True, None), no
    -- pending created, no notification
    (((h.withPending
          (some (PendingPermission.new "Bash" input0))).sticky_approve.2
        ).request_permission_start reSearch "Bash" input'
      = (RequestStart.returned (true, none),
         (h.withPending
           (some (PendingPermission.new "Bash" input0))).sticky_approve.2,
         0)) ∧
    -- clear_sticky_approvals returns the count removed and leaves the
    -- list empty
    (((h.withPending
          (some (PendingPermission.new "Bash" input0))).sticky_approve.2
        ).clear_sticky_approvals
      = (h.sticky_approvals.length + 1,
         h.withStickyPending []
           (some ⟨"Bash", input0, true, PermissionState.APPROVED, none⟩))) ∧
    -- after clearing, an unsafe Bash call suspends again (the
    -- auto-approval lasted only until the clear)
    (is_safe_tool_call "Bash" input' = false →
      ((h.withStickyPending []
          (some ⟨"Bash", input0, true, PermissionState.APPROVED, none⟩)
        ).request_permission_start reSearch "Bash" input').1
        = RequestStart.suspended (PendingPermission.new "Bash" input')) := by
  have hstick : ∀ l : List StickyApproval,
      (l ++ [(⟨"Bash", none, alGet TOOL_FIELD_NAMES "Bash"⟩
        : StickyApproval)]).any
        (fun a => a.matches reSearch "Bash" input') = true := by
    intro l
    refine List.any_eq_true.mpr
      ⟨⟨"Bash", none, alGet TOOL_FIELD_NAMES "Bash"⟩,
       List.mem_append_right l (List.mem_singleton.mpr rfl), ?_⟩
    simp [StickyApproval.matches]
  refine ⟨?_, rfl, ?_, ?_, ?_, ?_⟩
  · simp [PermissionHandler.sticky_approve, PendingPermission.new,
          PermissionHandler.withPending, PermissionHandler.withStickyPending]
  · simp [PermissionHandler.sticky_approve, PermissionHandler.withPending]
  · unfold PermissionHandler.request_permission_start
    by_cases hs : is_safe_tool_call "Bash" input' = true
    · simp [hs]
    · simp only [Bool.not_eq_true] at hs
      have hc : ((h.withPending
          (some (PendingPermission.new "Bash" input0))).sticky_approve.2
            ).check_sticky_approval reSearch "Bash" input' = true := by
        simp only [PermissionHandler.sticky_approve,
          PermissionHandler.check_sticky_approval,
          PermissionHandler.withPending, PendingPermission.new]
        exact hstick h.sticky_approvals
      simp [hs, hc]
  · simp [PermissionHandler.sticky_approve, PendingPermission.new,
          PermissionHandler.withPending, PermissionHandler.withStickyPending,
          PermissionHandler.clear_sticky_approvals]
  · intro hs
    rw [request_start_creates_pending reSearch _ "Bash" input' hs
      (by simp [PermissionHandler.check_sticky_approval,
                PermissionHandler.withStickyPending])]

/-- C5 witness: sticky-approving a pending `Bash` request on a concrete
handler, then auto-approving a different destructive command, then the
post-clear suspension. -/
theorem sticky_approve_semantics_witness :
    ((PermissionHandler.mk
        (some (PendingPermission.new "Bash" [("command", "make deploy")]))
        300 false []).sticky_approve
      = (some ⟨"Bash", none, some "command"⟩,
         PermissionHandler.mk
           (some ⟨"Bash", [("command", "make deploy")], true,
                  PermissionState.APPROVED, none⟩)
           300 false [⟨"Bash", none, some "command"⟩])) ∧
    ((PermissionHandler.mk
        (some (PendingPermission.new "Bash" [("command", "make deploy")]))
        300 false []).sticky_approve.2.request_permission_start
        (fun _ _ => false) "Bash" [("command", "rm -rf /")]
      = (RequestStart.returned (true, none),
         (PermissionHandler.mk
           (some (PendingPermission.new "Bash" [("command", "make deploy")]))
           300 false []).sticky_approve.2, 0)) ∧
    (((PermissionHandler.mk
        (some ⟨"Bash", [("command", "make deploy")], true,
               PermissionState.APPROVED, none⟩)
        300 false []).request_permission_start
        (fun _ _ => false) "Bash" [("command", "rm -rf /")]).1
      = RequestStart.suspended
          (PendingPermission.new "Bash" [("command", "rm -rf /")])) := by
  have hc := sticky_approve_semantics (fun _ _ => false)
    (PermissionHandler.mk
      (some (PendingPermission.new "Bash" [("command", "make deploy")]))
      300 false [])
    "Bash" [("command", "make deploy")] [("command", "rm -rf /")]
  refine ⟨?_, hc.2.2.2.1, ?_⟩
  · simpa [PermissionHandler.withPending,
      PermissionHandler.withStickyPending] using hc.1
  · have h6 := hc.2.2.2.2.2 (by decide)
    simpa [PermissionHandler.withStickyPending] using h6


/-! ## storage.py

The store file is JSON; parsed JSON values are modelled by `JValue`
(numbers carry `Int` — the records this layer writes hold only integers
and strings).  Python exceptions raised while interpreting a parsed value
are modelled by `PyErr`; `SessionStorage._load` catches exactly
`json.JSONDecodeError` (modelled as the parse step yielding `none`),
`KeyError` and `ValueError` — `TypeError` and `AttributeError` escape to
the caller. -/

inductive JValue where
  | null
  | bool (b : Bool)
  | num (n : Int)
  | str (s : String)
  | arr (items : List JValue)
  | obj (fields : List (String × JValue))
  deriving Repr

/-- Python exception kinds reachable in `SessionStorage._load`. -/
inductive PyErr where
  | keyError
  | valueError
  | typeError
  | attrError
  deriving DecidableEq, Repr

/-- Python `int(s)` on a string: strips whitespace, allows one leading
sign, then decimal digits (digit-grouping underscores are not modelled —
no key this layer writes contains them); anything else raises
`ValueError` (`none`). -/
def pyInt (s : String) : Option Int :=
  let t := (pyStrip s).data
  let digits := match t with
    | '-' :: rest => rest
    | '+' :: rest => rest
    | _ => t
  if digits = [] then none
  else if digits.all Char.isDigit then
    let v : Int :=
      Int.ofNat (digits.foldl (fun a c => a * 10 + (c.toNat - 48)) 0)
    some (match t with
      | '-' :: _ => -v
      | _ => v)
  else none

/-- `@dataclass class StoredSession` — serializable session data.  The
dataclass carries whatever values the JSON held (Python performs no type
check on construction), so every field is a `JValue`. -/
structure StoredSession where
  chat_id : JValue
  name : JValue
  cwd : JValue
  created_at : JValue
  message_count : JValue
  claude_session_id : JValue
  deriving Repr

/-- `StoredSession.from_dict` — required keys `chat_id`, `cwd`,
`created_at`, `message_count` raise `KeyError` when absent;
`name` defaults to `"main"`, `claude_session_id` to `None`. -/
def StoredSession.from_dict (data : List (String × JValue)) :
    Except PyErr StoredSession :=
  match alGet data "chat_id" with
  | none => Except.error PyErr.keyError
  | some chat_id =>
    match alGet data "cwd" with
    | none => Except.error PyErr.keyError
    | some cwd =>
      match alGet data "created_at" with
      | none => Except.error PyErr.keyError
      | some created_at =>
        match alGet data "message_count" with
        | none => Except.error PyErr.keyError
        | some message_count =>
          Except.ok ⟨chat_id, (alGet data "name").getD (JValue.str "main"),
                     cwd, created_at, message_count,
                     (alGet data "claude_session_id").getD JValue.null⟩

/-- `StoredSession.to_dict` — `dataclasses.asdict` in field order. -/
def StoredSession.to_dict (s : StoredSession) : List (String × JValue) :=
  [("chat_id", s.chat_id), ("name", s.name), ("cwd", s.cwd),
   ("created_at", s.created_at), ("message_count", s.message_count),
   ("claude_session_id", s.claude_session_id)]

/-- `@dataclass class ChatStoredState` — stored state for all sessions in
a chat.  `active_session` carries whatever JSON value was stored (always a
string in records this layer writes). -/
structure ChatStoredState where
  active_session : JValue
  sessions : List (String × StoredSession)
  deriving Repr

/-- The loop inside `ChatStoredState.from_dict`: for each entry of the
`sessions` dict, force `chat_id` onto the record (`s_data["chat_id"] = …`)
and parse it; a record that is not a dict rejects the item assignment
(`TypeError`). -/
def parse_sessions (chat_id : Int) :
    List (String × JValue) → Except PyErr (List (String × StoredSession))
  | [] => Except.ok []
  | (name, s_data) :: rest =>
    match s_data with
    | JValue.obj fs =>
      match StoredSession.from_dict
          (alSet fs "chat_id" (JValue.num chat_id)) with
      | Except.error e => Except.error e
      | Except.ok s =>
        match parse_sessions chat_id rest with
        | Except.error e => Except.error e
        | Except.ok tail => Except.ok ((name, s) :: tail)
    | _ => Except.error PyErr.typeError

/-- `ChatStoredState.from_dict` — iterates `data.get("sessions", {})`.
A `sessions` value that is not a dict has no `.items()`
(`AttributeError`). -/
def ChatStoredState.from_dict (chat_id : Int)
    (data : List (String × JValue)) : Except PyErr ChatStoredState :=
  match (alGet data "sessions").getD (JValue.obj []) with
  | JValue.obj fs =>
    match parse_sessions chat_id fs with
    | Except.error e => Except.error e
    | Except.ok sessions =>
      Except.ok ⟨(alGet data "active_session").getD (JValue.str "main"),
                 sessions⟩
  | _ => Except.error PyErr.attrError

/-- `ChatStoredState.to_dict`. -/
def ChatStoredState.to_dict (st : ChatStoredState) :
    List (String × JValue) :=
  [("active_session", st.active_session),
   ("sessions",
    JValue.obj (st.sessions.map
      (fun p => (p.1, JValue.obj p.2.to_dict))))]

/-- Python substring containment `sub in s` on character lists
(the empty string is contained in everything). -/
def listHasInfix (sub : List Char) : List Char → Bool
  | [] => sub.isEmpty
  | c :: rest => sub.isPrefixOf (c :: rest) || listHasInfix sub rest

/-- `SessionStorage._is_old_format` performed on the raw chat record:
`"cwd" in data`.  On a dict this is key containment, on a string
substring containment, on a list membership; on a number, boolean or
`None` the `in` operator raises `TypeError`. -/
def is_old_format (data : JValue) : Except PyErr Bool :=
  match data with
  | JValue.obj fs => Except.ok (alGet fs "cwd").isSome
  | JValue.str s => Except.ok (listHasInfix "cwd".data s.data)
  | JValue.arr xs =>
      Except.ok (xs.any (fun x => match x with
        | JValue.str t => t = "cwd"
        | _ => false))
  | _ => Except.error PyErr.typeError

/-- `SessionStorage._migrate_old_format` — sets `old_data["name"] =
"main"` (item assignment fails with `TypeError` on non-dict records) and
wraps the parsed session as the sole, active `"main"` session.  Note that
it does NOT set `chat_id`, so `StoredSession.from_dict` raises `KeyError`
on any legacy record lacking a stored `chat_id` key. -/
def migrate_old_format (_chat_id : Int) (old_data : JValue) :
    Except PyErr ChatStoredState :=
  match old_data with
  | JValue.obj fs =>
    match StoredSession.from_dict (alSet fs "name" (JValue.str "main")) with
    | Except.error e => Except.error e
    | Except.ok session =>
        Except.ok ⟨JValue.str "main", [("main", session)]⟩
  | _ => Except.error PyErr.typeError

/-- One iteration of `_load`'s migration loop: parse the chat key with
`int(...)`, sniff the format, and build the `ChatStoredState`; the `Bool`
reports whether this record was legacy (contributing to `needs_save`). -/
def load_entry (chat_id_str : String) (chat_data : JValue) :
    Except PyErr ((Int × ChatStoredState) × Bool) :=
  match pyInt chat_id_str with
  | none => Except.error PyErr.valueError
  | some chat_id =>
    match is_old_format chat_data with
    | Except.error e => Except.error e
    | Except.ok old =>
      if old then
        match migrate_old_format chat_id chat_data with
        | Except.error e => Except.error e
        | Except.ok st => Except.ok ((chat_id, st), true)
      else
        match chat_data with
        | JValue.obj fs =>
          match ChatStoredState.from_dict chat_id fs with
          | Except.error e => Except.error e
          | Except.ok st => Except.ok ((chat_id, st), false)
        | _ => Except.error PyErr.attrError

/-- `_load`'s loop over `raw.items()`, accumulating `self._data`
assignments in iteration order and OR-ing the `needs_save` flag. -/
def load_entries (acc : List (Int × ChatStoredState)) (needs_save : Bool) :
    List (String × JValue) →
    Except PyErr (List (Int × ChatStoredState) × Bool)
  | [] => Except.ok (acc, needs_save)
  | (k, v) :: rest =>
    match load_entry k v with
    | Except.error e => Except.error e
    | Except.ok r => load_entries (alSet acc r.1.1 r.1.2) (needs_save || r.2) rest

/-- `SessionStorage._load`.  The argument is the `json.load` outcome:
`none` for a parse failure (`json.JSONDecodeError`), otherwise the parsed
value.  Result: `Except.ok (data, rewritten)` — the in-memory store and
whether `_save` rewrote the file (`needs_save`); `Except.error` models an
exception escaping the constructor (only `TypeError`/`AttributeError`
can: `JSONDecodeError`, `KeyError` and `ValueError` are caught and reset
the store to empty without saving). -/
def loadStore (file : Option JValue) :
    Except PyErr (List (Int × ChatStoredState) × Bool) :=
  match file with
  | none => Except.ok ([], false)
  | some raw =>
    match raw with
    | JValue.obj entries =>
      match load_entries [] false entries with
      | Except.ok r => Except.ok r
      | Except.error e =>
          if e = PyErr.keyError ∨ e = PyErr.valueError then
            Except.ok ([], false)
          else Except.error e
    | _ => Except.error PyErr.attrError

/-! ## Storage: helper lemmas and claim theorems -/

theorem alGet_alSet_self {α : Type} [DecidableEq κ]
    (d : List (κ × α)) (k : κ) (v : α) :
    alGet (alSet d k v) k = some v := by
  induction d with
  | nil => simp [alGet, alSet]
  | cons hd tl ih =>
      by_cases hk : hd.1 = k
      · simp [alGet, alSet, hk]
      · simpa [alGet, alSet, hk] using ih

theorem alGet_alSet_ne {α : Type} [DecidableEq κ]
    (d : List (κ × α)) (k k' : κ) (v : α) (h : k ≠ k') :
    alGet (alSet d k v) k' = alGet d k' := by
  induction d with
  | nil => simp [alGet, alSet, h]
  | cons hd tl ih =>
      by_cases hk : hd.1 = k
      · simp [alGet, alSet, hk, h, Ne.symm h]
      · by_cases hk' : hd.1 = k'
        · simp [alGet, alSet, hk, hk', Ne.symm h]
        · simpa [alGet, alSet, hk, hk'] using ih

/-- The outcome `load_entry` produces for a legacy record (dict with
`cwd`) that carries its required stored fields. -/
theorem load_entry_legacy (k : String) (cid : Int)
    (fs : List (String × JValue)) (cwdv cidv crv mcv : JValue)
    (hk : pyInt k = some cid)
    (hcwd : alGet fs "cwd" = some cwdv)
    (hcid : alGet fs "chat_id" = some cidv)
    (hcr : alGet fs "created_at" = some crv)
    (hmc : alGet fs "message_count" = some mcv) :
    load_entry k (JValue.obj fs)
      = Except.ok ((cid, ⟨JValue.str "main",
          [("main",
            ⟨cidv, JValue.str "main", cwdv, crv, mcv,
             (alGet fs "claude_session_id").getD JValue.null⟩)]⟩),
          true) := by
  have hsd : StoredSession.from_dict (alSet fs "name" (JValue.str "main"))
      = Except.ok ⟨cidv, JValue.str "main", cwdv, crv, mcv,
          (alGet fs "claude_session_id").getD JValue.null⟩ := by
    unfold StoredSession.from_dict
    rw [alGet_alSet_ne fs "name" "chat_id" _ (by decide), hcid,
        alGet_alSet_ne fs "name" "cwd" _ (by decide), hcwd,
        alGet_alSet_ne fs "name" "created_at" _ (by decide), hcr,
        alGet_alSet_ne fs "name" "message_count" _ (by decide), hmc,
        alGet_alSet_self fs "name" (JValue.str "main"),
        alGet_alSet_ne fs "name" "claude_session_id" _ (by decide)]
    rfl
  simp only [load_entry, hk, is_old_format, hcwd, Option.isSome_some,
    if_true, migrate_old_format, hsd]

theorem load_entries_all_legacy :
    ∀ (entries : List (String × JValue))
      (acc : List (Int × ChatStoredState)) (ns : Bool),
      entries ≠ [] →
      (∀ e ∈ entries,
        ∃ cid st, load_entry e.1 e.2 = Except.ok ((cid, st), true)) →
      ∃ d, load_entries acc ns entries = Except.ok (d, true) := by
  intro entries
  induction entries with
  | nil => intro _ _ hne _; exact absurd rfl hne
  | cons e rest ih =>
      intro acc ns _ hall
      obtain ⟨cid, st, he⟩ := hall e (List.mem_cons_self e rest)
      match rest, ih with
      | [], _ =>
          refine ⟨alSet acc cid st, ?_⟩
          show load_entries acc ns [e] = _
          rw [show (e : String × JValue) = (e.1, e.2) from rfl]
          unfold load_entries
          rw [he]
          unfold load_entries
          rw [Bool.or_true]
      | r :: rs, ih =>
          obtain ⟨d, hd⟩ := ih (alSet acc cid st) (ns || true)
            (List.cons_ne_nil r rs)
            (fun x hx => hall x (List.mem_cons_of_mem e hx))
          refine ⟨d, ?_⟩
          show load_entries acc ns (e :: r :: rs) = _
          rw [show (e : String × JValue) = (e.1, e.2) from rfl]
          unfold load_entries
          rw [he]
          exact hd

/-- C7 counterexample: the spec's own example legacy record
`{"123": {"cwd": "/code", "created_at": T, "message_count": 5}}` — which
lacks a stored `chat_id` key — is NOT migrated: `_migrate_old_format`
never injects `chat_id`, `StoredSession.from_dict` raises `KeyError`,
`_load` catches it, and the entire store loads as empty with no rewrite
(no `"main"` session, the stored `message_count` 5 is lost). -/
theorem legacy_without_chat_id_lost_counterexample :
    loadStore (some (JValue.obj [("123",
      JValue.obj [("cwd", JValue.str "/code"),
                  ("created_at", JValue.str "2024-01-15T10:30:00"),
                  ("message_count", JValue.num 5)])]))
      = Except.ok ([], false) := by rfl

/-- C7 (amended).  A legacy chat record (top-level `cwd`, no
`sessions`/`active_session` wrapper) that also carries its stored
`chat_id` — as every legacy record in the repository's own fixtures
does — is migrated on load into a multi-session state whose single
session is named `"main"` and is active, preserving `message_count`
(a stored 5 loads as 5) and `claude_session_id`, with the store
rewritten (`needs_save`) once after the loop; a whole store of such
records loads with every record migrated and the single rewrite flag
set.  (Records lacking `chat_id` hit the caught `KeyError` and reset
the whole store to empty — see the counterexample.) -/
theorem legacy_with_chat_id_migrates (k : String) (cid : Int)
    (fs : List (String × JValue)) (cwdv cidv crv mcv : JValue)
    (entries : List (String × JValue))
    (hk : pyInt k = some cid)
    (hcwd : alGet fs "cwd" = some cwdv)
    (hcid : alGet fs "chat_id" = some cidv)
    (hcr : alGet fs "created_at" = some crv)
    (hmc : alGet fs "message_count" = some mcv)
    (hne : entries ≠ [])
    (hall : ∀ e ∈ entries,
      ∃ cid' st', load_entry e.1 e.2 = Except.ok ((cid', st'), true)) :
    loadStore (some (JValue.obj [(k, JValue.obj fs)]))
      = Except.ok ([(cid, ⟨JValue.str "main",
          [("main",
            ⟨cidv, JValue.str "main", cwdv, crv, mcv,
             (alGet fs "claude_session_id").getD JValue.null⟩)]⟩)],
          true) ∧
    ∃ d, loadStore (some (JValue.obj entries)) = Except.ok (d, true) := by
  have he := load_entry_legacy k cid fs cwdv cidv crv mcv
    hk hcwd hcid hcr hmc
  constructor
  · simp [loadStore, load_entries, he, alSet]
  · obtain ⟨d, hd⟩ := load_entries_all_legacy entries [] false hne hall
    refine ⟨d, ?_⟩
    simp only [loadStore, hd]

/-- C7 witness: the fixture-shaped record (with `chat_id`), stored count
5, migrates into an active `"main"` session with count 5 and the file is
rewritten. -/
theorem legacy_with_chat_id_migrates_witness :
    loadStore (some (JValue.obj [("123",
      JValue.obj [("chat_id", JValue.num 123),
                  ("cwd", JValue.str "/code"),
                  ("created_at", JValue.str "2024-01-15T10:30:00"),
                  ("message_count", JValue.num 5)])]))
      = Except.ok ([(123, ⟨JValue.str "main",
          [("main",
            ⟨JValue.num 123, JValue.str "main", JValue.str "/code",
             JValue.str "2024-01-15T10:30:00", JValue.num 5,
             JValue.null⟩)]⟩)], true) := by
  have h := (legacy_with_chat_id_migrates "123" 123
    [("chat_id", JValue.num 123), ("cwd", JValue.str "/code"),
     ("created_at", JValue.str "2024-01-15T10:30:00"),
     ("message_count", JValue.num 5)]
    (JValue.str "/code") (JValue.num 123)
    (JValue.str "2024-01-15T10:30:00") (JValue.num 5)
    [("123", JValue.obj [("chat_id", JValue.num 123),
      ("cwd", JValue.str "/code"),
      ("created_at", JValue.str "2024-01-15T10:30:00"),
      ("message_count", JValue.num 5)])]
    rfl rfl rfl rfl rfl
    (List.cons_ne_nil _ _)
    (fun e hmem => by
      rw [List.mem_singleton.mp hmem]
      exact ⟨123, ⟨JValue.str "main",
        [("main", ⟨JValue.num 123, JValue.str "main", JValue.str "/code",
          JValue.str "2024-01-15T10:30:00", JValue.num 5,
          JValue.null⟩)]⟩, rfl⟩)).1
  simpa using h

/-- C8 counterexample: a store file holding the valid-JSON but corrupt
content `[1, 2]` is not treated as an empty store — `raw.items()` raises
`AttributeError`, which is not in the caught exception tuple and escapes
to the caller constructing `SessionStorage`. -/
theorem corrupt_store_raises_counterexample :
    loadStore (some (JValue.arr [JValue.num 1, JValue.num 2]))
      = Except.error PyErr.attrError := by rfl

/-- C8 (amended).  Corruption that fails JSON parsing loads as the empty
store with no exception and no rewrite; corruption surfacing as
`KeyError` or `ValueError` while interpreting records is caught and
likewise resets the store to empty without saving; but the only
exceptions `_load` can let escape are `TypeError`/`AttributeError`
(valid-JSON contents of the wrong shape) — see the counterexample. -/
theorem caught_corruption_resets_store :
    (loadStore none = Except.ok ([], false)) ∧
    (∀ (v : JValue) (e : PyErr), loadStore (some v) = Except.error e →
      e = PyErr.typeError ∨ e = PyErr.attrError) ∧
    (∀ (entries : List (String × JValue)) (e : PyErr),
      load_entries [] false entries = Except.error e →
      (e = PyErr.keyError ∨ e = PyErr.valueError) →
      loadStore (some (JValue.obj entries)) = Except.ok ([], false)) := by
  refine ⟨rfl, ?_, ?_⟩
  · intro v e hv
    match v with
    | JValue.obj entries =>
        simp only [loadStore] at hv
        match hle : load_entries [] false entries with
        | Except.ok r => rw [hle] at hv; exact absurd hv (by simp)
        | Except.error e' =>
            rw [hle] at hv
            have hv' : (if e' = PyErr.keyError ∨ e' = PyErr.valueError
                then (Except.ok ([], false) :
                  Except PyErr (List (Int × ChatStoredState) × Bool))
                else Except.error e') = Except.error e := hv
            by_cases hc : e' = PyErr.keyError ∨ e' = PyErr.valueError
            · rw [if_pos hc] at hv'; exact absurd hv' (by simp)
            · rw [if_neg hc] at hv'
              cases hv'
              push_neg at hc
              match e, hc with
              | PyErr.typeError, _ => exact Or.inl rfl
              | PyErr.attrError, _ => exact Or.inr rfl
              | PyErr.keyError, hc => exact absurd rfl hc.1
              | PyErr.valueError, hc => exact absurd rfl hc.2
    | JValue.null => cases hv; exact Or.inr rfl
    | JValue.bool b => cases hv; exact Or.inr rfl
    | JValue.num n => cases hv; exact Or.inr rfl
    | JValue.str s => cases hv; exact Or.inr rfl
    | JValue.arr xs => cases hv; exact Or.inr rfl
  · intro entries e hle hc
    simp only [loadStore, hle]
    rw [if_pos hc]

/-- C8 witness: a record missing its required fields raises the caught
`KeyError`, and the store loads empty without raising. -/
theorem caught_corruption_resets_store_witness :
    load_entries [] false [("123", JValue.obj [("cwd", JValue.str "/c")])]
      = Except.error PyErr.keyError ∧
    loadStore (some (JValue.obj [("123",
      JValue.obj [("cwd", JValue.str "/c")])]))
      = Except.ok ([], false) := by
  constructor
  · rfl
  · exact (caught_corruption_resets_store).2.2
      [("123", JValue.obj [("cwd", JValue.str "/c")])]
      PyErr.keyError (by rfl) (Or.inl rfl)


/-! ## manager.py

Only the parts the claims touch are embedded: the `Session` dataclass
(with the SDK client handle reduced to its `is not None` bit — teardown
happens on a detached background task and mutates no manager state),
`generate_session_name`, `close_session` (synchronous variant),
`list_sessions` and `get_active_session_name`.  The storage mirror calls
guarded by `if self.storage:` are carried along on an optional store. -/

/-- Decimal digit character, `chr(48 + d)` for `d < 10` — the digits
Python's `f"session-{counter}"` formatting emits. -/
def digitChar (d : Nat) : Char := Char.ofNat (48 + d)

/-- Decimal rendering of a natural number as emitted by Python string
formatting, written with explicit fuel so that it reduces structurally;
`natDigitsGo_congr` below shows any fuel above the argument gives the
same digits. -/
def natDigitsGo : Nat → Nat → List Char
  | 0, _ => []
  | fuel + 1, n =>
      if n < 10 then [digitChar n]
      else natDigitsGo fuel (n / 10) ++ [digitChar (n % 10)]

/-- Python `str(n)` / `f"{n}"` for a natural number. -/
def natRepr (n : Nat) : String := ⟨natDigitsGo (n + 1) n⟩

/-- `f"session-{counter}"`. -/
def sessionName (counter : Nat) : String := "session-" ++ natRepr counter

/-- `@dataclass class Session` (manager.py) — `created_at` is kept
opaque, `sdk_client` reduced to its presence bit. -/
structure Session where
  chat_id : Int
  name : String
  cwd : String
  created_at : String
  message_count : Nat
  permission_handler : PermissionHandler
  has_sdk_client : Bool
  claude_session_id : Option String
  deriving DecidableEq, Repr

/-- `@dataclass class SessionInfo` — summary info used in listings. -/
structure SessionInfo where
  name : String
  message_count : Nat
  cwd : String
  is_active : Bool
  deriving DecidableEq, Repr

/-- `v == s` where `s` is a Python `str` and `v` an arbitrary stored
value (equality across types is `False` in Python). -/
def jEqStr (v : JValue) (s : String) : Bool :=
  match v with
  | JValue.str t => t = s
  | _ => false

/-- `SessionStorage.delete_session` acting on the in-memory `_data` map
(the `_save` call only mirrors it to disk). -/
def storage_delete_session (data : List (Int × ChatStoredState))
    (chat_id : Int) (name : String) :
    List (Int × ChatStoredState) × Bool :=
  match alGet data chat_id with
  | none => (data, false)
  | some state =>
    match alGet state.sessions name with
    | none => (data, false)
    | some _ =>
      let sessions' := alErase state.sessions name
      if jEqStr state.active_session name then
        match sessions' with
        | [] => (alErase data chat_id, true)
        | (n, _) :: _ =>
            (alSet data chat_id ⟨JValue.str n, sessions'⟩, true)
      else
        (alSet data chat_id ⟨state.active_session, sessions'⟩, true)

/-- `SessionStorage.set_active_session` acting on the in-memory `_data`
map. -/
def storage_set_active_session (data : List (Int × ChatStoredState))
    (chat_id : Int) (name : String) :
    List (Int × ChatStoredState) × Bool :=
  match alGet data chat_id with
  | none => (data, false)
  | some state =>
    if (alGet state.sessions name).isSome then
      (alSet data chat_id ⟨JValue.str name, state.sessions⟩, true)
    else (data, false)

/-- `class SessionManager` — the state the embedded operations read and
write. -/
structure SessionManager where
  sessions : List (Int × List (String × Session))
  active_sessions : List (Int × String)
  default_cwd : String
  permission_timeout : Nat
  storage : Option (List (Int × ChatStoredState))
  deriving Repr

/-- The `while f"session-{counter}" in existing: counter += 1` loop of
`generate_session_name`, with fuel; `existing.length + 1` steps always
suffice to reach the least free counter (`find_free_spec` +
`sessionName_free_exists`). -/
def find_free (existing : List String) (counter : Nat) : Nat → Nat
  | 0 => counter
  | fuel + 1 =>
      if sessionName counter ∈ existing then
        find_free existing (counter + 1) fuel
      else counter

/-- `SessionManager.generate_session_name`. -/
def SessionManager.generate_session_name (m : SessionManager)
    (chat_id : Int) : String :=
  match alGet m.sessions chat_id with
  | none => "session-2"
  | some inner =>
    let existing := inner.map (fun p => p.1)
    sessionName (find_free existing 2 (existing.length + 1))

/-- `SessionManager._get_active_session_name` —
`self.active_sessions.get(chat_id, "main")`. -/
def SessionManager.active_session_name_or_main (m : SessionManager)
    (chat_id : Int) : String :=
  (alGet m.active_sessions chat_id).getD "main"

/-- `SessionManager.get_active_session_name`. -/
def SessionManager.get_active_session_name (m : SessionManager)
    (chat_id : Int) : Option String :=
  match alGet m.sessions chat_id with
  | none => none
  | some _ => some (m.active_session_name_or_main chat_id)

/-- `SessionManager.list_sessions`. -/
def SessionManager.list_sessions (m : SessionManager) (chat_id : Int) :
    List SessionInfo :=
  match alGet m.sessions chat_id with
  | none => []
  | some inner =>
    let active := m.active_session_name_or_main chat_id
    inner.map (fun p =>
      ⟨p.2.name, p.2.message_count, p.2.cwd, p.2.name = active⟩)

/-- `SessionManager.close_session` (synchronous variant): delete the
session from the registry and the store; if it was the active one,
promote the first remaining session (`next(iter(...))`, insertion order)
or drop the chat entirely when none remain.  The `sdk_client` teardown is
fire-and-forget on a background task and touches no state modelled
here. -/
def SessionManager.close_session (m : SessionManager) (chat_id : Int)
    (name : String) : Bool × SessionManager :=
  match alGet m.sessions chat_id with
  | none => (false, m)
  | some inner =>
    match alGet inner name with
    | none => (false, m)
    | some _session =>
      let inner' := alErase inner name
      let sessions1 := alSet m.sessions chat_id inner'
      let storage1 := m.storage.map
        (fun d => (storage_delete_session d chat_id name).1)
      if alGet m.active_sessions chat_id = some name then
        match inner' with
        | [] =>
            (true, { m with
              sessions := alErase sessions1 chat_id,
              active_sessions := alErase m.active_sessions chat_id,
              storage := storage1 })
        | (new_active, _) :: _ =>
            (true, { m with
              sessions := sessions1,
              active_sessions := alSet m.active_sessions chat_id new_active,
              storage := storage1.map
                (fun d =>
                  (storage_set_active_session d chat_id new_active).1) })
      else
        (true, { m with sessions := sessions1, storage := storage1 })


/-! ## Manager: helper lemmas and the C9 claim -/

theorem natDigitsGo_congr : ∀ (n f1 f2 : Nat), n < f1 → n < f2 →
    natDigitsGo f1 n = natDigitsGo f2 n := by
  intro n
  induction n using Nat.strong_induction_on with
  | _ n ih =>
    intro f1 f2 h1 h2
    match f1, f2 with
    | g1 + 1, g2 + 1 =>
      by_cases hlt : n < 10
      · simp [natDigitsGo, hlt]
      · have hdiv : n / 10 < n := Nat.div_lt_self (by omega) (by omega)
        have hrec : natDigitsGo g1 (n / 10) = natDigitsGo g2 (n / 10) :=
          ih (n / 10) hdiv g1 g2 (by omega) (by omega)
        simp [natDigitsGo, hlt, hrec]

theorem natDigitsGo_ne_nil (f n : Nat) (h : 0 < f) :
    natDigitsGo f n ≠ [] := by
  match f with
  | g + 1 =>
    by_cases hlt : n < 10 <;> simp [natDigitsGo, hlt]

theorem digitChar_bounded_inj :
    ∀ a, a < 10 → ∀ b, b < 10 → digitChar a = digitChar b → a = b := by
  decide

theorem natDigitsGo_inj : ∀ (a b fa fb : Nat), a < fa → b < fb →
    natDigitsGo fa a = natDigitsGo fb b → a = b := by
  intro a
  induction a using Nat.strong_induction_on with
  | _ a ih =>
    intro b fa fb ha hb heq
    match fa, fb with
    | ga + 1, gb + 1 =>
      by_cases ha10 : a < 10
      · by_cases hb10 : b < 10
        · simp [natDigitsGo, ha10, hb10] at heq
          exact digitChar_bounded_inj a ha10 b hb10 heq
        · exfalso
          simp only [natDigitsGo, ha10, if_true, hb10, if_false] at heq
          have hlen := congrArg List.length heq
          have hne := natDigitsGo_ne_nil gb (b / 10) (by omega)
          have hpos := List.length_pos.mpr hne
          simp only [List.length_append, List.length_cons,
            List.length_nil] at hlen
          omega
      · by_cases hb10 : b < 10
        · exfalso
          simp only [natDigitsGo, ha10, if_false, hb10, if_true] at heq
          have hlen := congrArg List.length heq
          have hne := natDigitsGo_ne_nil ga (a / 10) (by omega)
          have hpos := List.length_pos.mpr hne
          simp only [List.length_append, List.length_cons,
            List.length_nil] at hlen
          omega
        · simp only [natDigitsGo, ha10, hb10, if_false] at heq
          have hrev := congrArg List.reverse heq
          simp only [List.reverse_append, List.reverse_cons,
            List.reverse_nil, List.nil_append, List.singleton_append,
            List.cons.injEq] at hrev
          obtain ⟨hdig, htail⟩ := hrev
          have hmod : a % 10 = b % 10 :=
            digitChar_bounded_inj (a % 10) (Nat.mod_lt a (by omega))
              (b % 10) (Nat.mod_lt b (by omega)) hdig
          have htails : natDigitsGo ga (a / 10) = natDigitsGo gb (b / 10) :=
            List.reverse_injective htail
          have hdiva : a / 10 < a := Nat.div_lt_self (by omega) (by omega)
          have hdivb : b / 10 < b := Nat.div_lt_self (by omega) (by omega)
          have hdiv : a / 10 = b / 10 :=
            ih (a / 10) hdiva (b / 10) ga gb (by omega) (by omega) htails
          omega

theorem natRepr_inj (a b : Nat) (h : natRepr a = natRepr b) : a = b := by
  have hd : natDigitsGo (a + 1) a = natDigitsGo (b + 1) b :=
    congrArg String.data h
  exact natDigitsGo_inj a b (a + 1) (b + 1) (Nat.lt_succ_self a)
    (Nat.lt_succ_self b) hd

theorem string_data_append (a b : String) :
    (a ++ b).data = a.data ++ b.data := by
  cases a; cases b; rfl

theorem sessionName_inj (a b : Nat) (h : sessionName a = sessionName b) :
    a = b := by
  apply natRepr_inj
  have hd := congrArg String.data h
  rw [sessionName, sessionName, string_data_append, string_data_append]
    at hd
  exact congrArg String.mk (List.append_cancel_left hd)

theorem sessionName_free_exists (existing : List String) (counter : Nat) :
    ∃ m, m ≤ existing.length ∧ sessionName (counter + m) ∉ existing := by
  by_contra hcon
  push_neg at hcon
  have hsub : ((List.range (existing.length + 1)).map
      (fun m => sessionName (counter + m))) ⊆ existing := by
    intro x hx
    simp only [List.mem_map, List.mem_range] at hx
    obtain ⟨m, hm, rfl⟩ := hx
    exact hcon m (by omega)
  have hnd : ((List.range (existing.length + 1)).map
      (fun m => sessionName (counter + m))).Nodup := by
    refine (List.nodup_range _).map ?_
    intro x y hxy
    have := sessionName_inj _ _ hxy
    omega
  have hle := (hnd.subperm hsub).length_le
  simp [List.length_map, List.length_range] at hle

theorem find_free_spec : ∀ (fuel counter : Nat) (existing : List String),
    (∃ m, m < fuel ∧ sessionName (counter + m) ∉ existing) →
    counter ≤ find_free existing counter fuel ∧
    sessionName (find_free existing counter fuel) ∉ existing ∧
    ∀ k, counter ≤ k → k < find_free existing counter fuel →
      sessionName k ∈ existing := by
  intro fuel
  induction fuel with
  | zero =>
      intro c e h
      obtain ⟨m, hm, _⟩ := h
      omega
  | succ g ih =>
      intro c e h
      by_cases hmem : sessionName c ∈ e
      · obtain ⟨m, hm, hnot⟩ := h
        have hm0 : m ≠ 0 := by
          rintro rfl
          exact hnot hmem
        have hrec := ih (c + 1) e ⟨m - 1, by omega, by
          have harith : c + 1 + (m - 1) = c + m := by omega
          rw [harith]
          exact hnot⟩
        have hff : find_free e c (g + 1) = find_free e (c + 1) g := by
          simp [find_free, hmem]
        rw [hff]
        have h1 := hrec.1
        refine ⟨by omega, hrec.2.1, ?_⟩
        intro k hk1 hk2
        by_cases hkc : k = c
        · rw [hkc]; exact hmem
        · exact hrec.2.2 k (by omega) hk2
      · have hff : find_free e c (g + 1) = c := by
          simp [find_free, hmem]
        rw [hff]
        exact ⟨le_refl c, hmem, fun k hk1 hk2 => by omega⟩

theorem alGet_alErase_self {α : Type} [DecidableEq κ]
    (d : List (κ × α)) (k : κ) : alGet (alErase d k) k = none := by
  induction d with
  | nil => simp [alGet, alErase]
  | cons hd tl ih =>
      by_cases hk : hd.1 = k
      · simpa [alErase, hk] using ih
      · simpa [alGet, alErase, hk] using ih

theorem alGet_alErase_ne {α : Type} [DecidableEq κ]
    (d : List (κ × α)) (k k' : κ) (h : k' ≠ k) :
    alGet (alErase d k) k' = alGet d k' := by
  induction d with
  | nil => simp [alGet, alErase]
  | cons hd tl ih =>
      by_cases hk : hd.1 = k
      · rw [show alErase (hd :: tl) k = alErase tl k by simp [alErase, hk]]
        rw [ih]
        have : hd.1 ≠ k' := by rw [hk]; exact fun he => h he.symm
        simp [alGet, this]
      · by_cases hk' : hd.1 = k'
        · simp [alGet, alErase, hk, hk', h]
        · simpa [alGet, alErase, hk, hk'] using ih


/-- The names of the sessions a chat currently holds
(`set(self.sessions[chat_id].keys())`, empty when the chat is absent). -/
def existingNames (m : SessionManager) (chat_id : Int) : List String :=
  ((alGet m.sessions chat_id).getD []).map (fun p => p.1)

/-- C9.  `generate_session_name` returns the lowest-numbered unused
`session-N` with `N` starting at 2 (so `{"main"}` yields `"session-2"`
and `{"main", "session-2"}` yields `"session-3"` — concretely in the
witness); closing the active session while others remain promotes a
remaining session (the first in insertion order) to active; and closing
the last remaining session removes the chat entirely, leaving
`list_sessions` empty and `get_active_session_name` `None`. -/
theorem generate_name_and_close_semantics :
    (∀ (m : SessionManager) (chat_id : Int), ∃ N,
      m.generate_session_name chat_id = sessionName N ∧ 2 ≤ N ∧
      sessionName N ∉ existingNames m chat_id ∧
      ∀ k, 2 ≤ k → k < N → sessionName k ∈ existingNames m chat_id) ∧
    (∀ (m : SessionManager) (chat_id : Int) (name : String)
       (inner : List (String × Session)) (s s2 : Session)
       (n2 : String) (rest' : List (String × Session)),
      alGet m.sessions chat_id = some inner →
      alGet inner name = some s →
      alGet m.active_sessions chat_id = some name →
      alErase inner name = (n2, s2) :: rest' →
      (m.close_session chat_id name).1 = true ∧
      (m.close_session chat_id name).2.get_active_session_name chat_id
        = some n2 ∧
      n2 ∈ (alErase inner name).map (fun p => p.1)) ∧
    (∀ (m : SessionManager) (chat_id : Int) (name : String)
       (inner : List (String × Session)) (s : Session),
      alGet m.sessions chat_id = some inner →
      alGet inner name = some s →
      alGet m.active_sessions chat_id = some name →
      alErase inner name = [] →
      (m.close_session chat_id name).1 = true ∧
      (m.close_session chat_id name).2.list_sessions chat_id = [] ∧
      (m.close_session chat_id name).2.get_active_session_name chat_id
        = none) := by
  refine ⟨?_, ?_, ?_⟩
  · intro m chat_id
    match hinner : alGet m.sessions chat_id with
    | none =>
        refine ⟨2, ?_, le_refl 2, ?_, by omega⟩
        · simp [SessionManager.generate_session_name, hinner]
          rfl
        · simp [existingNames, hinner]
    | some inner =>
        have hex := sessionName_free_exists (inner.map (fun p => p.1)) 2
        obtain ⟨mfree, hmle, hmnot⟩ := hex
        have hspec := find_free_spec ((inner.map (fun p => p.1)).length + 1)
          2 (inner.map (fun p => p.1)) ⟨mfree, by omega, hmnot⟩
        refine ⟨find_free (inner.map (fun p => p.1)) 2
          ((inner.map (fun p => p.1)).length + 1), ?_, hspec.1, ?_, ?_⟩
        · simp [SessionManager.generate_session_name, hinner]
        · simpa [existingNames, hinner] using hspec.2.1
        · intro k hk2 hklt
          have := hspec.2.2 k hk2 hklt
          simpa [existingNames, hinner] using this
  · intro m chat_id name inner s s2 n2 rest' hinner hname hact herase
    refine ⟨?_, ?_, ?_⟩
    · simp [SessionManager.close_session, hinner, hname, hact, herase]
    · simp only [SessionManager.close_session, hinner, hname, hact,
        herase, if_pos]
      simp [SessionManager.get_active_session_name,
        SessionManager.active_session_name_or_main, alGet_alSet_self]
    · rw [herase]
      simp
  · intro m chat_id name inner s hinner hname hact herase
    refine ⟨?_, ?_, ?_⟩
    · simp [SessionManager.close_session, hinner, hname, hact, herase]
    · simp only [SessionManager.close_session, hinner, hname, hact,
        herase, if_pos]
      simp [SessionManager.list_sessions, alGet_alErase_self,
        alGet_alSet_self]
    · simp only [SessionManager.close_session, hinner, hname, hact,
        herase, if_pos]
      simp [SessionManager.get_active_session_name, alGet_alErase_self,
        alGet_alSet_self]

/-- C9 witness: with only `"main"` the generated name is `"session-2"`;
with `"main"` and `"session-2"` it is `"session-3"`; closing the active
`"main"` of a two-session chat promotes the remaining session; closing
the last session of a one-session chat removes the chat. -/
theorem generate_name_and_close_semantics_witness :
    ((SessionManager.mk
        [(123, [("main",
          ⟨123, "main", "/code", "T", 0,
           ⟨none, 300, false, []⟩, false, none⟩)])]
        [(123, "main")] "/code" 300 none).generate_session_name 123
      = "session-2") ∧
    ((SessionManager.mk
        [(123, [("main",
          ⟨123, "main", "/code", "T", 0,
           ⟨none, 300, false, []⟩, false, none⟩),
          ("session-2",
          ⟨123, "session-2", "/tmp", "T", 1,
           ⟨none, 300, false, []⟩, false, none⟩)])]
        [(123, "main")] "/code" 300 none).generate_session_name 123
      = "session-3") ∧
    (((SessionManager.mk
        [(123, [("main",
          ⟨123, "main", "/code", "T", 0,
           ⟨none, 300, false, []⟩, false, none⟩),
          ("session-2",
          ⟨123, "session-2", "/tmp", "T", 1,
           ⟨none, 300, false, []⟩, false, none⟩)])]
        [(123, "main")] "/code" 300 none).close_session 123 "main").1
      = true) ∧
    (((SessionManager.mk
        [(123, [("main",
          ⟨123, "main", "/code", "T", 0,
           ⟨none, 300, false, []⟩, false, none⟩),
          ("session-2",
          ⟨123, "session-2", "/tmp", "T", 1,
           ⟨none, 300, false, []⟩, false, none⟩)])]
        [(123, "main")] "/code" 300 none).close_session 123
        "main").2.get_active_session_name 123 = some "session-2") ∧
    (((SessionManager.mk
        [(123, [("main",
          ⟨123, "main", "/code", "T", 0,
           ⟨none, 300, false, []⟩, false, none⟩)])]
        [(123, "main")] "/code" 300 none).close_session 123
        "main").2.list_sessions 123 = []) ∧
    (((SessionManager.mk
        [(123, [("main",
          ⟨123, "main", "/code", "T", 0,
           ⟨none, 300, false, []⟩, false, none⟩)])]
        [(123, "main")] "/code" 300 none).close_session 123
        "main").2.get_active_session_name 123 = none) := by
  have h2 := generate_name_and_close_semantics.2.1
    (SessionManager.mk
      [(123, [("main",
        ⟨123, "main", "/code", "T", 0,
         ⟨none, 300, false, []⟩, false, none⟩),
        ("session-2",
        ⟨123, "session-2", "/tmp", "T", 1,
         ⟨none, 300, false, []⟩, false, none⟩)])]
      [(123, "main")] "/code" 300 none)
    123 "main"
    [("main",
      ⟨123, "main", "/code", "T", 0,
       ⟨none, 300, false, []⟩, false, none⟩),
      ("session-2",
      ⟨123, "session-2", "/tmp", "T", 1,
       ⟨none, 300, false, []⟩, false, none⟩)]
    ⟨123, "main", "/code", "T", 0, ⟨none, 300, false, []⟩, false, none⟩
    ⟨123, "session-2", "/tmp", "T", 1, ⟨none, 300, false, []⟩, false, none⟩
    "session-2" []
    (by decide) (by decide) (by decide) (by decide)
  have h3 := generate_name_and_close_semantics.2.2
    (SessionManager.mk
      [(123, [("main",
        ⟨123, "main", "/code", "T", 0,
         ⟨none, 300, false, []⟩, false, none⟩)])]
      [(123, "main")] "/code" 300 none)
    123 "main"
    [("main",
      ⟨123, "main", "/code", "T", 0,
       ⟨none, 300, false, []⟩, false, none⟩)]
    ⟨123, "main", "/code", "T", 0, ⟨none, 300, false, []⟩, false, none⟩
    (by decide) (by decide) (by decide) (by decide)
  exact ⟨by decide, by decide, h2.1, h2.2.1, h3.2.1, h3.2.2⟩

end VoiceAgent
